import Mathlib

/-!
Shallow embedding of the Norwegian form-field validators from
`localflavor/no/forms.py` (django-localflavor), together with proofs of
the specification claims about them.

Each Python field's validation logic is translated into an executable Lean
function.  Machine behaviour that matters here is pure string and natural
number arithmetic, so `Nat`, `Char` and `List Char` model it exactly.
The host framework distinguishes only one user-facing error message per
field; the specification splits it into two kinds, structural
(`InvalidFormat`) and checksum (`InvalidChecksum`), and the embedding
records which check failed.
-/

/-- The two error kinds of the specification. -/
inductive Err where
  | InvalidFormat
  | InvalidChecksum
deriving DecidableEq, Repr

/-- A calendar date, as produced by Python's `datetime.date`. -/
structure Date where
  year : Nat
  month : Nat
  day : Nat
deriving DecidableEq, Repr

/-- Gregorian leap-year rule used by `datetime.date`. -/
def isLeapYear (y : Nat) : Bool :=
  y % 4 = 0 && (y % 100 ≠ 0 || y % 400 = 0)

/-- Number of days in a month, per `datetime.date`. -/
def daysInMonth (y m : Nat) : Nat :=
  if m = 2 then (if isLeapYear y then 29 else 28)
  else if m = 4 ∨ m = 6 ∨ m = 9 ∨ m = 11 then 30
  else 31

/-- Python `datetime.date(y, m, d)`: `some` on a real calendar date
(with `MINYEAR = 1 ≤ y ≤ 9999 = MAXYEAR`), `none` when the constructor
raises `ValueError`. -/
def mkDate (y m d : Nat) : Option Date :=
  if 1 ≤ y ∧ y ≤ 9999 ∧ 1 ≤ m ∧ m ≤ 12 ∧ 1 ≤ d ∧ d ≤ daysInMonth y m then
    some ⟨y, m, d⟩
  else none

/-- The regex class `\d`. -/
def isDigitChar (c : Char) : Bool :=
  '0' ≤ c && c ≤ '9'

/-- Value of one decimal digit character, `int(c)`. -/
def digitVal (c : Char) : Nat :=
  c.toNat - '0'.toNat

/-- Evaluation of `int(s)` on a string of decimal digits. -/
def digitsToNat (l : List Char) : Nat :=
  l.foldl (fun a c => 10 * a + digitVal c) 0

/-- The helper `multiply_reduce(aval, bval)` from the source:
`sum([(a * b) for (a, b) in zip(aval, bval)])`. -/
def multiply_reduce (aval bval : List Nat) : Nat :=
  (List.zipWith (fun a b => a * b) aval bval).sum

/-- Whether an `Except` computation succeeded. -/
def exceptOk {α β : Type} : Except α β → Bool
  | .ok _ => true
  | .error _ => false

deriving instance DecidableEq for Except

/-! ## NOSocialSecurityNumber -/

/-- The attributes that `NOSocialSecurityNumber.clean` stores on the field
object (`self.birthday`, `self.gender`). -/
structure SSNState where
  birthday : Option Date
  gender : Option Char
deriving DecidableEq, Repr

def weight_1 : List Nat := [3, 7, 6, 1, 8, 9, 4, 5, 2, 1, 0]

def weight_2 : List Nat := [5, 4, 3, 2, 7, 6, 5, 4, 3, 2, 1]

/-- Slice `int(value[:2])`. -/
def ssnDay (value : String) : Nat := digitsToNat (value.data.take 2)

/-- Slice `int(value[2:4])`. -/
def ssnMonth (value : String) : Nat := digitsToNat ((value.data.drop 2).take 2)

/-- Slice `int(value[4:6])`. -/
def ssnYear2 (value : String) : Nat := digitsToNat ((value.data.drop 4).take 2)

/-- Slice `int(value[6:9])`. -/
def ssnInum (value : String) : Nat := digitsToNat ((value.data.drop 6).take 3)

/-- One `if <cond>: self.birthday = datetime.date(y, month, day)` statement
inside the `try` block: when the range condition holds, constructing the
date either assigns `birthday` or raises `ValueError` (the `.error` case,
which carries the attribute state at the raise). -/
def ssnApplyRule (cond : Prop) [Decidable cond] (y m d : Nat) (st : SSNState) :
    Except SSNState SSNState :=
  if cond then
    match mkDate y m d with
    | some dt => .ok ⟨some dt, st.gender⟩
    | none => .error st
  else .ok st

/-- The four unconditional century-disambiguation `if` statements, run in
source order with `ValueError` propagation. -/
def ssnRules (inum year2 month day : Nat) (st : SSNState) :
    Except SSNState SSNState :=
  match ssnApplyRule (inum < 500) (1900 + year2) month day st with
  | .error e => .error e
  | .ok s1 =>
    match ssnApplyRule (500 ≤ inum ∧ inum < 750 ∧ 54 < year2) (1800 + year2) month day s1 with
    | .error e => .error e
    | .ok s2 =>
      match ssnApplyRule (500 ≤ inum ∧ inum < 1000 ∧ year2 < 40) (2000 + year2) month day s2 with
      | .error e => .error e
      | .ok s3 => ssnApplyRule (900 ≤ inum ∧ inum < 1000 ∧ 39 < year2) (1900 + year2) month day s3

/-- Model of `NOSocialSecurityNumber.clean(self, value)`.  The first component is the
returned value or the raised `ValidationError`'s kind; the second is the
field object's attribute state after the call (Python keeps mutations made
before a raise). -/
def NOSocialSecurityNumber.clean (st : SSNState) (value : String) :
    Except Err String × SSNState :=
  if value = "" then (.ok "", st)
  else if ¬ (value.data.length = 11 ∧ value.data.all isDigitChar) then
    (.error .InvalidFormat, st)
  else
    let st1 : SSNState := ⟨none, st.gender⟩
    match ssnRules (ssnInum value) (ssnYear2 value) (ssnMonth value) (ssnDay value) st1 with
    | .error stE => (.error Err.InvalidFormat, stE)
    | .ok st2 =>
      let sexnum := digitVal (value.data.getD 8 '0')
      let st3 : SSNState := ⟨st2.birthday, some (if sexnum % 2 = 0 then 'F' else 'M')⟩
      let digits := value.data.map digitVal
      if ¬ (multiply_reduce digits weight_1 % 11 = 0) then (.error .InvalidChecksum, st3)
      else if ¬ (multiply_reduce digits weight_2 % 11 = 0) then (.error .InvalidChecksum, st3)
      else (.ok value, st3)

/-- The date-derivation (`try` block) stage succeeds on `value`: no matching
century rule constructs an impossible calendar date.  (Success of the stage
does not depend on the field's prior attribute state; see
`ssnRules_ok_indep`.) -/
def ssnDateOk (value : String) : Prop :=
  exceptOk (ssnRules (ssnInum value) (ssnYear2 value) (ssnMonth value)
    (ssnDay value) ⟨none, none⟩) = true

/-! ## NOZipCodeField -/

/-- Model of `NOZipCodeField`: a `RegexField` for `^\d{4}$`; `clean` returns the
value unchanged on a match. -/
def NOZipCodeField.clean (value : String) : Except Err String :=
  if value.data.length = 4 ∧ value.data.all isDigitChar then .ok value
  else .error .InvalidFormat

/-! ## NOPhoneNumberField -/

/-- The regex class `\s` as Python's `re` module defines it. -/
def isPySpace (c : Char) : Bool :=
  c = ' ' || c = '\t' || c = '\n' || c = '\r' || c = '\x0b' || c = '\x0c'

/-- Consume exactly `n` characters of class `\d`, returning the rest. -/
def dropDigits : Nat → List Char → Option (List Char)
  | 0, l => some l
  | _ + 1, [] => none
  | n + 1, c :: rest => if isDigitChar c then dropDigits n rest else none

/-- Optional `\s?` (greedy; the following atom is always `\d`, so greediness is
equivalent to the regex's backtracking search). -/
def optWs (l : List Char) : List Char :=
  match l with
  | c :: rest => if isPySpace c then rest else l
  | [] => []

/-- First alternative `\d{3}\s?\d{2}\s?\d{3}` anchored at the end. -/
def phoneAlt1 (l : List Char) : Bool :=
  match dropDigits 3 l with
  | none => false
  | some r1 =>
    match dropDigits 2 (optWs r1) with
    | none => false
    | some r2 =>
      match dropDigits 3 (optWs r2) with
      | some [] => true
      | _ => false

/-- Second alternative `\d{2}\s?\d{2}\s?\d{2}\s?\d{2}` anchored at the end. -/
def phoneAlt2 (l : List Char) : Bool :=
  match dropDigits 2 l with
  | none => false
  | some r1 =>
    match dropDigits 2 (optWs r1) with
    | none => false
    | some r2 =>
      match dropDigits 2 (optWs r2) with
      | none => false
      | some r3 =>
        match dropDigits 2 (optWs r3) with
        | some [] => true
        | _ => false

/-- Full match of `^(?:\+47)? ?(\d{3}\s?\d{2}\s?\d{3}|\d{2}\s?\d{2}\s?\d{2}\s?\d{2})$`.
`\+47` and the literal space are consumed greedily; skipping either when it
is present would leave a non-digit where `\d` is required, so the greedy
parse is equivalent to the regex. -/
def phoneMatch (l : List Char) : Bool :=
  let l1 := match l with
    | '+' :: '4' :: '7' :: rest => rest
    | _ => l
  let l2 := match l1 with
    | ' ' :: rest => rest
    | _ => l1
  phoneAlt1 l2 || phoneAlt2 l2

/-- Model of `NOPhoneNumberField`: a `RegexField`; `clean` returns the value
unchanged on a match. -/
def NOPhoneNumberField.clean (value : String) : Except Err String :=
  if phoneMatch value.data then .ok value else .error .InvalidFormat

/-! ## NOBankAccountField -/

/-- Python `value.replace('.', '').replace(' ', '')`. -/
def bankStrip (l : List Char) : List Char :=
  l.filter (fun c => ¬ (c = '.' ∨ c = ' '))

/-- Model of `NOBankAccountField.to_python`. -/
def NOBankAccountField.to_python (value : String) : String :=
  String.mk (bankStrip value.data)

/-- Optional `[\. ]?` (greedy; the following atom is always `\d`, so greediness is
equivalent to the regex's backtracking search). -/
def optSep (l : List Char) : List Char :=
  match l with
  | c :: rest => if c = '.' ∨ c = ' ' then rest else l
  | [] => []

/-- Full match of `^(\d{4})[\. ]?(\d{2})[\. ]?(\d{5})$`. -/
def bankMatch (l : List Char) : Bool :=
  match dropDigits 4 l with
  | none => false
  | some r1 =>
    match dropDigits 2 (optSep r1) with
    | none => false
    | some r2 =>
      match dropDigits 5 (optSep r2) with
      | some [] => true
      | _ => false

def weights_bank : List Nat := [2, 3, 4, 5, 6, 7, 2, 3, 4, 5]

/-- The calculated bank checksum digit: digits are the first ten characters
reversed (`map(int, list(value)[:10])[::-1]`), weighted and summed, then
`11 - sum % 11`, with a result of 11 folded to 0. -/
def bankCalculated (l : List Char) : Nat :=
  let digits := ((l.take 10).map digitVal).reverse
  let c0 := 11 - multiply_reduce digits weights_bank % 11
  if c0 = 11 then 0 else c0

/-- Model of `NOBankAccountField.clean`.  `super().clean` first applies `to_python`
(separator stripping), then the `MaxLengthValidator(13)` and the regex
validator on the stripped value; the checksum step then runs on the
stripped value (`int(value[-1])` is its last character). -/
def NOBankAccountField.clean (value : String) : Except Err String :=
  let v := NOBankAccountField.to_python value
  if ¬ (v.length ≤ 13) then .error .InvalidFormat
  else if ¬ (bankMatch v.data) then .error .InvalidFormat
  else if ¬ (bankCalculated v.data = digitVal (v.data.getLastD '0')) then
    .error .InvalidChecksum
  else .ok v

/-! ## NOOrganisationNumberField -/

/-- ASCII lower-casing, for the `re.IGNORECASE` flag. -/
def charLower (c : Char) : Char :=
  if 'A' ≤ c ∧ c ≤ 'Z' then Char.ofNat (c.toNat + 32) else c

/-- Optional `(NO )?` under `re.IGNORECASE`: the captured text (unaltered case) and
the rest.  Greedy; skipping a present `NO ` would leave `N` where `\d` is
required, so greediness matches the regex. -/
def orgPre (l : List Char) : List Char × List Char :=
  match l with
  | a :: b :: c :: rest =>
    if c = ' ' ∧ charLower a = 'n' ∧ charLower b = 'o' then ([a, b, c], rest)
    else ([], l)
  | _ => ([], l)

/-- One `(\d{3})` group: captured digits and the rest. -/
def parse3 (l : List Char) : Option (List Char × List Char) :=
  match l with
  | a :: b :: c :: rest =>
    if isDigitChar a ∧ isDigitChar b ∧ isDigitChar c then some ([a, b, c], rest)
    else none
  | _ => none

/-- Optional ` ?` between digit groups (greedy; following atom is `\d`). -/
def optSpace (l : List Char) : List Char :=
  match l with
  | c :: rest => if c = ' ' then rest else l
  | [] => []

/-- Optional `( MVA)?$` under `re.IGNORECASE`: the captured suffix text. -/
def parseMVA (l : List Char) : Option (List Char) :=
  match l with
  | [] => some []
  | [s, m, v, a] =>
    if s = ' ' ∧ charLower m = 'm' ∧ charLower v = 'v' ∧ charLower a = 'a' then
      some [s, m, v, a]
    else none
  | _ => none

/-- Full match of `^(NO )?(\d{3}) ?(\d{3}) ?(\d{3})( MVA)?$` with
`re.IGNORECASE`, returning the five captured groups (unmatched optional
groups as the empty string, which is how the source reads them). -/
def orgMatchL (l : List Char) :
    Option (List Char × List Char × List Char × List Char × List Char) :=
  match parse3 (orgPre l).2 with
  | none => none
  | some (g1, l2) =>
    match parse3 (optSpace l2) with
    | none => none
    | some (g2, l3) =>
      match parse3 (optSpace l3) with
      | none => none
      | some (g3, l4) =>
        match parseMVA l4 with
        | none => none
        | some suf => some ((orgPre l).1, g1, g2, g3, suf)

/-- Model of `NOOrganisationNumberField.to_python`: on a match, reassemble
`prefix + digits + suffix`; otherwise return the value unchanged. -/
def NOOrganisationNumberField.to_python (value : String) : String :=
  match orgMatchL value.data with
  | some (pre, g1, g2, g3, suf) => String.mk (pre ++ (g1 ++ g2 ++ g3) ++ suf)
  | none => value

def weights_org : List Nat := [3, 2, 7, 6, 5, 4, 3, 2]

/-- The calculated organisation-number check value: the first 8 of the 9
digits, weighted and summed, then `11 - sum % 11` (no folding). -/
def orgCalculated (number : List Char) : Nat :=
  11 - multiply_reduce ((number.take 8).map digitVal) weights_org % 11

/-- Model of `NOOrganisationNumberField.clean`.  `super().clean` applies `to_python`
then the `MaxLengthValidator(18)` and the regex validator on the normalized
value; `clean` then re-matches the normalized value and checksums the nine
digits of its groups (`int(number[-1])` is the ninth digit). -/
def NOOrganisationNumberField.clean (value : String) : Except Err String :=
  let v := NOOrganisationNumberField.to_python value
  if ¬ (v.length ≤ 18) then .error .InvalidFormat
  else
    match orgMatchL v.data with
    | none => .error .InvalidFormat
    | some (_, h1, h2, h3, _) =>
      let number := h1 ++ h2 ++ h3
      if orgCalculated number = 10 ∨
          ¬ (orgCalculated number = digitVal (number.getLastD '0')) then
        .error .InvalidChecksum
      else .ok v

/-! ## Helper lemmas: national identity number -/

lemma mkDate_eq {y m d : Nat} {dt : Date} (h : mkDate y m d = some dt) :
    dt = ⟨y, m, d⟩ := by
  unfold mkDate at h
  split at h
  · exact (Option.some.injEq _ _ ▸ h).symm
  · exact absurd h (by simp)

lemma ssnApplyRule_pos {cond : Prop} [Decidable cond] (hc : cond)
    (y m d : Nat) (st : SSNState) :
    ssnApplyRule cond y m d st =
      match mkDate y m d with
      | some dt => .ok ⟨some dt, st.gender⟩
      | none => .error st := by
  simp [ssnApplyRule, hc]

lemma ssnApplyRule_neg {cond : Prop} [Decidable cond] (hc : ¬ cond)
    (y m d : Nat) (st : SSNState) :
    ssnApplyRule cond y m d st = .ok st := by
  simp [ssnApplyRule, hc]

lemma ssnRules_case1 {inum year2 : Nat} (month day : Nat) (st : SSNState)
    (h : inum < 500) :
    ssnRules inum year2 month day st =
      match mkDate (1900 + year2) month day with
      | some dt => .ok ⟨some dt, st.gender⟩
      | none => .error st := by
  have h2 : ¬ (500 ≤ inum ∧ inum < 750 ∧ 54 < year2) := by omega
  have h3 : ¬ (500 ≤ inum ∧ inum < 1000 ∧ year2 < 40) := by omega
  have h4 : ¬ (900 ≤ inum ∧ inum < 1000 ∧ 39 < year2) := by omega
  rw [ssnRules, ssnApplyRule_pos h]
  rcases hD : mkDate (1900 + year2) month day with _ | dt
  · simp
  · simp [ssnApplyRule_neg h2, ssnApplyRule_neg h3, ssnApplyRule_neg h4]

lemma ssnRules_case3 {inum year2 : Nat} (month day : Nat) (st : SSNState)
    (h5 : 500 ≤ inum) (h1k : inum < 1000) (hy : year2 < 40) :
    ssnRules inum year2 month day st =
      match mkDate (2000 + year2) month day with
      | some dt => .ok ⟨some dt, st.gender⟩
      | none => .error st := by
  have h1 : ¬ (inum < 500) := by omega
  have h2 : ¬ (500 ≤ inum ∧ inum < 750 ∧ 54 < year2) := by omega
  have h4 : ¬ (900 ≤ inum ∧ inum < 1000 ∧ 39 < year2) := by omega
  rw [ssnRules, ssnApplyRule_neg h1]
  simp only [ssnApplyRule_neg h2]
  rw [ssnApplyRule_pos (And.intro h5 (And.intro h1k hy))]
  rcases hD : mkDate (2000 + year2) month day with _ | dt
  · simp
  · simp [ssnApplyRule_neg h4]

lemma ssnRules_case4 {inum year2 : Nat} (month day : Nat) (st : SSNState)
    (h9 : 900 ≤ inum) (h1k : inum < 1000) (hy : 39 < year2) :
    ssnRules inum year2 month day st =
      match mkDate (1900 + year2) month day with
      | some dt => .ok ⟨some dt, st.gender⟩
      | none => .error st := by
  have h1 : ¬ (inum < 500) := by omega
  have h2 : ¬ (500 ≤ inum ∧ inum < 750 ∧ 54 < year2) := by omega
  have h3 : ¬ (500 ≤ inum ∧ inum < 1000 ∧ year2 < 40) := by omega
  rw [ssnRules, ssnApplyRule_neg h1]
  simp only [ssnApplyRule_neg h2, ssnApplyRule_neg h3]
  rw [ssnApplyRule_pos (And.intro h9 (And.intro h1k hy))]

lemma ssnRules_none {inum year2 : Nat} (month day : Nat) (st : SSNState)
    (h1 : ¬ (inum < 500))
    (h2 : ¬ (500 ≤ inum ∧ inum < 750 ∧ 54 < year2))
    (h3 : ¬ (500 ≤ inum ∧ inum < 1000 ∧ year2 < 40))
    (h4 : ¬ (900 ≤ inum ∧ inum < 1000 ∧ 39 < year2)) :
    ssnRules inum year2 month day st = .ok st := by
  rw [ssnRules, ssnApplyRule_neg h1]
  simp only [ssnApplyRule_neg h2, ssnApplyRule_neg h3, ssnApplyRule_neg h4]

/-- Whether one rule raises does not depend on the attribute state it is
run from. -/
lemma ssnApplyRule_rel (cond : Prop) [Decidable cond] (y m d : Nat)
    (st st' : SSNState) :
    (∃ e e', ssnApplyRule cond y m d st = .error e ∧
      ssnApplyRule cond y m d st' = .error e') ∨
    (∃ s s', ssnApplyRule cond y m d st = .ok s ∧
      ssnApplyRule cond y m d st' = .ok s') := by
  unfold ssnApplyRule
  split_ifs
  · cases mkDate y m d <;> simp
  · simp

lemma ssnRules_ok_indep (inum year2 month day : Nat) (st st' : SSNState) :
    exceptOk (ssnRules inum year2 month day st) =
      exceptOk (ssnRules inum year2 month day st') := by
  unfold ssnRules
  rcases ssnApplyRule_rel (inum < 500) (1900 + year2) month day st st' with
    ⟨e, e', h, h'⟩ | ⟨s, s', h, h'⟩
  · simp only [h, h']
    rfl
  · simp only [h, h']
    rcases ssnApplyRule_rel (500 ≤ inum ∧ inum < 750 ∧ 54 < year2) (1800 + year2)
        month day s s' with ⟨e, e', h2, h2'⟩ | ⟨s2, s2', h2, h2'⟩
    · simp only [h2, h2']
      rfl
    · simp only [h2, h2']
      rcases ssnApplyRule_rel (500 ≤ inum ∧ inum < 1000 ∧ year2 < 40) (2000 + year2)
          month day s2 s2' with ⟨e, e', h3, h3'⟩ | ⟨s3, s3', h3, h3'⟩
      · simp only [h3, h3']
        rfl
      · simp only [h3, h3']
        rcases ssnApplyRule_rel (900 ≤ inum ∧ inum < 1000 ∧ 39 < year2) (1900 + year2)
            month day s3 s3' with ⟨e, e', h4, h4'⟩ | ⟨s4, s4', h4, h4'⟩
        · simp only [h4, h4']
          rfl
        · simp only [h4, h4']
          rfl

lemma ssnApplyRule_gender {cond : Prop} [Decidable cond] {y m d : Nat}
    {st st' : SSNState} (h : ssnApplyRule cond y m d st = .ok st') :
    st'.gender = st.gender := by
  unfold ssnApplyRule at h
  split_ifs at h
  · rcases hD : mkDate y m d with _ | dt <;> rw [hD] at h
    · cases h
    · injection h with h
      subst h
      rfl
  · injection h with h
    subst h
    rfl

lemma ssnRules_gender {inum year2 month day : Nat} {st st' : SSNState}
    (h : ssnRules inum year2 month day st = .ok st') :
    st'.gender = st.gender := by
  unfold ssnRules at h
  rcases h1 : ssnApplyRule (inum < 500) (1900 + year2) month day st with e | s1
  · simp only [h1] at h
    cases h
  · simp only [h1] at h
    rcases h2 : ssnApplyRule (500 ≤ inum ∧ inum < 750 ∧ 54 < year2) (1800 + year2)
        month day s1 with e | s2
    · simp only [h2] at h
      cases h
    · simp only [h2] at h
      rcases h3 : ssnApplyRule (500 ≤ inum ∧ inum < 1000 ∧ year2 < 40) (2000 + year2)
          month day s2 with e | s3
      · simp only [h3] at h
        cases h
      · simp only [h3] at h
        exact (ssnApplyRule_gender h).trans ((ssnApplyRule_gender h3).trans
          ((ssnApplyRule_gender h2).trans (ssnApplyRule_gender h1)))

/-- Unfolding of `clean` on a structurally valid, non-empty value. -/
lemma ssnClean_main {st : SSNState} {value : String} (hne : value ≠ "")
    (hs : value.data.length = 11 ∧ value.data.all isDigitChar) :
    NOSocialSecurityNumber.clean st value =
      match ssnRules (ssnInum value) (ssnYear2 value) (ssnMonth value)
          (ssnDay value) ⟨none, st.gender⟩ with
      | .error stE => (.error Err.InvalidFormat, stE)
      | .ok st2 =>
        let st3 : SSNState :=
          ⟨st2.birthday, some (if digitVal (value.data.getD 8 '0') % 2 = 0 then 'F' else 'M')⟩
        if ¬ (multiply_reduce (value.data.map digitVal) weight_1 % 11 = 0) then
          (.error .InvalidChecksum, st3)
        else if ¬ (multiply_reduce (value.data.map digitVal) weight_2 % 11 = 0) then
          (.error .InvalidChecksum, st3)
        else (.ok value, st3) := by
  rw [NOSocialSecurityNumber.clean, if_neg hne, if_neg (not_not_intro hs)]

/-- The returned value (or raised error) of one `clean` call never depends
on the attribute state left by earlier calls. -/
lemma ssnClean_fst_indep (st st' : SSNState) (value : String) :
    (NOSocialSecurityNumber.clean st value).1 =
      (NOSocialSecurityNumber.clean st' value).1 := by
  by_cases hne : value = ""
  · rw [hne]
    rfl
  by_cases hs : value.data.length = 11 ∧ value.data.all isDigitChar
  · rw [ssnClean_main hne hs, ssnClean_main hne hs]
    have hind := ssnRules_ok_indep (ssnInum value) (ssnYear2 value) (ssnMonth value)
      (ssnDay value) ⟨none, st.gender⟩ ⟨none, st'.gender⟩
    rcases hr : ssnRules (ssnInum value) (ssnYear2 value) (ssnMonth value)
        (ssnDay value) ⟨none, st.gender⟩ with e | s2
    · rcases hr' : ssnRules (ssnInum value) (ssnYear2 value) (ssnMonth value)
          (ssnDay value) ⟨none, st'.gender⟩ with e' | s2'
      · rfl
      · rw [hr, hr'] at hind
        exact absurd hind (by simp [exceptOk])
    · rcases hr' : ssnRules (ssnInum value) (ssnYear2 value) (ssnMonth value)
          (ssnDay value) ⟨none, st'.gender⟩ with e' | s2'
      · rw [hr, hr'] at hind
        exact absurd hind (by simp [exceptOk])
      · by_cases hc1 : multiply_reduce (value.data.map digitVal) weight_1 % 11 = 0 <;>
        by_cases hc2 : multiply_reduce (value.data.map digitVal) weight_2 % 11 = 0 <;>
        simp [hc1, hc2]
  · rw [NOSocialSecurityNumber.clean, NOSocialSecurityNumber.clean,
      if_neg hne, if_neg hne, if_pos hs, if_pos hs]

/-- When the effective century rule computes year `y`, a successful `clean`
leaves `birthday = date(y, month, day)`. -/
lemma ssnClean_ok_birthday {st : SSNState} {value r : String} {st' : SSNState}
    {y : Nat} (hne : value ≠ "")
    (hs : value.data.length = 11 ∧ value.data.all isDigitChar)
    (h : NOSocialSecurityNumber.clean st value = (.ok r, st'))
    (hrule : ∀ s : SSNState,
      ssnRules (ssnInum value) (ssnYear2 value) (ssnMonth value) (ssnDay value) s =
        match mkDate y (ssnMonth value) (ssnDay value) with
        | some dt => .ok ⟨some dt, s.gender⟩
        | none => .error s) :
    st'.birthday = some ⟨y, ssnMonth value, ssnDay value⟩ := by
  rw [ssnClean_main hne hs, hrule] at h
  rcases hD : mkDate y (ssnMonth value) (ssnDay value) with _ | dt
  · rw [hD] at h
    rw [Prod.mk.injEq] at h
    exact Except.noConfusion h.1
  · rw [hD] at h
    simp only [] at h
    split_ifs at h <;> rw [Prod.mk.injEq] at h <;>
      first
        | exact Except.noConfusion h.1
        | rw [← h.2, mkDate_eq hD]

/-- Claim C1: century disambiguation.  For every accepted 11-digit value:
inum in [0,500) gives birth year 1900+year2; inum in [900,1000) with
year2 > 39 also gives 1900+year2 (so year2 = 45 means 1945, not 2045);
inum in [500,1000) with year2 < 40 gives 2000+year2.  The four range rules
are evaluated unconditionally in source order. -/
theorem claim_ssn_century (st : SSNState) (value r : String) (st' : SSNState)
    (h : NOSocialSecurityNumber.clean st value = (.ok r, st'))
    (hlen : value.data.length = 11) (hdig : value.data.all isDigitChar = true) :
    (ssnInum value < 500 →
      st'.birthday = some ⟨1900 + ssnYear2 value, ssnMonth value, ssnDay value⟩) ∧
    (900 ≤ ssnInum value ∧ ssnInum value < 1000 ∧ 39 < ssnYear2 value →
      st'.birthday = some ⟨1900 + ssnYear2 value, ssnMonth value, ssnDay value⟩) ∧
    (500 ≤ ssnInum value ∧ ssnInum value < 1000 ∧ ssnYear2 value < 40 →
      st'.birthday = some ⟨2000 + ssnYear2 value, ssnMonth value, ssnDay value⟩) := by
  have hne : value ≠ "" := by
    intro he
    rw [he] at hlen
    simp at hlen
  refine ⟨fun hc => ?_, fun hc => ?_, fun hc => ?_⟩
  · exact ssnClean_ok_birthday hne ⟨hlen, hdig⟩ h
      (fun s => ssnRules_case1 (ssnMonth value) (ssnDay value) s hc)
  · exact ssnClean_ok_birthday hne ⟨hlen, hdig⟩ h
      (fun s => ssnRules_case4 (ssnMonth value) (ssnDay value) s hc.1 hc.2.1 hc.2.2)
  · exact ssnClean_ok_birthday hne ⟨hlen, hdig⟩ h
      (fun s => ssnRules_case3 (ssnMonth value) (ssnDay value) s hc.1 hc.2.1 hc.2.2)

/-- Witness for C1: `01014590001` (inum = 900, year2 = 45) is accepted and
its derived birth date is 1945-01-01, not 2045. -/
theorem claim_ssn_century_witness :
    (NOSocialSecurityNumber.clean ⟨none, none⟩ "01014590001").2.birthday =
      some ⟨1945, 1, 1⟩ :=
  (claim_ssn_century ⟨none, none⟩ "01014590001" "01014590001"
    (NOSocialSecurityNumber.clean ⟨none, none⟩ "01014590001").2
    (by decide) (by decide) (by decide)).2.1 (by decide)

/-- Claim C2: an 11-digit value that passes the structural and date checks is
accepted iff both weighted sums (weights `weight_1` and `weight_2`, over all
11 digits) are 0 mod 11; if either is nonzero mod 11 the result is
`InvalidChecksum`. -/
theorem claim_ssn_checksum (st : SSNState) (value : String)
    (hlen : value.data.length = 11) (hdig : value.data.all isDigitChar = true)
    (hdate : ssnDateOk value) :
    ((NOSocialSecurityNumber.clean st value).1 = .ok value ↔
      (multiply_reduce (value.data.map digitVal) weight_1 % 11 = 0 ∧
       multiply_reduce (value.data.map digitVal) weight_2 % 11 = 0)) ∧
    (¬ (multiply_reduce (value.data.map digitVal) weight_1 % 11 = 0 ∧
        multiply_reduce (value.data.map digitVal) weight_2 % 11 = 0) →
      (NOSocialSecurityNumber.clean st value).1 = .error Err.InvalidChecksum) := by
  have hne : value ≠ "" := by
    intro he
    rw [he] at hlen
    simp at hlen
  rw [ssnClean_main hne ⟨hlen, hdig⟩]
  have hind := ssnRules_ok_indep (ssnInum value) (ssnYear2 value) (ssnMonth value)
    (ssnDay value) ⟨none, st.gender⟩ ⟨none, none⟩
  unfold ssnDateOk at hdate
  rcases hr : ssnRules (ssnInum value) (ssnYear2 value) (ssnMonth value)
      (ssnDay value) ⟨none, st.gender⟩ with e | s2
  · rw [hr, hdate] at hind
    exact absurd hind (by simp [exceptOk])
  · by_cases hc1 : multiply_reduce (value.data.map digitVal) weight_1 % 11 = 0 <;>
    by_cases hc2 : multiply_reduce (value.data.map digitVal) weight_2 % 11 = 0 <;>
    simp [hc1, hc2]

/-- Witness for C2: `01017000027` satisfies both mod-11 checks and is
accepted. -/
theorem claim_ssn_checksum_witness :
    (NOSocialSecurityNumber.clean ⟨none, none⟩ "01017000027").1 =
      .ok "01017000027" :=
  (claim_ssn_checksum ⟨none, none⟩ "01017000027" (by decide) (by decide)
    (by unfold ssnDateOk; decide)).1.mpr ⟨by decide, by decide⟩

/-- Claim C7: an empty-string input is passed through as success: empty canonical
value, no error, and no attribute is touched (no birth date, no gender). -/
theorem claim_ssn_empty (st : SSNState) :
    NOSocialSecurityNumber.clean st "" = (.ok "", st) :=
  rfl

/-- Witness for C7 at the fresh attribute state. -/
theorem claim_ssn_empty_witness :
    NOSocialSecurityNumber.clean ⟨none, none⟩ "" = (.ok "", ⟨none, none⟩) :=
  claim_ssn_empty ⟨none, none⟩

/-- Claim C9: an 11-digit value whose individual number and year fall in the gaps
of the four century rules (inum in [750,900) with year2 ≥ 40, or inum in
[500,750) with 40 ≤ year2 ≤ 54) and which passes both checksums is accepted
with no birth date derived. -/
theorem claim_ssn_no_rule (st : SSNState) (value : String)
    (hlen : value.data.length = 11) (hdig : value.data.all isDigitChar = true)
    (hrange : (750 ≤ ssnInum value ∧ ssnInum value < 900 ∧ 40 ≤ ssnYear2 value) ∨
      (500 ≤ ssnInum value ∧ ssnInum value < 750 ∧
        40 ≤ ssnYear2 value ∧ ssnYear2 value ≤ 54))
    (hc1 : multiply_reduce (value.data.map digitVal) weight_1 % 11 = 0)
    (hc2 : multiply_reduce (value.data.map digitVal) weight_2 % 11 = 0) :
    (NOSocialSecurityNumber.clean st value).1 = .ok value ∧
    (NOSocialSecurityNumber.clean st value).2.birthday = none := by
  have hne : value ≠ "" := by
    intro he
    rw [he] at hlen
    simp at hlen
  have h1 : ¬ (ssnInum value < 500) := by
    rcases hrange with ⟨a, b, c⟩ | ⟨a, b, c, d⟩ <;> omega
  have h2 : ¬ (500 ≤ ssnInum value ∧ ssnInum value < 750 ∧ 54 < ssnYear2 value) := by
    rcases hrange with ⟨a, b, c⟩ | ⟨a, b, c, d⟩ <;> omega
  have h3 : ¬ (500 ≤ ssnInum value ∧ ssnInum value < 1000 ∧ ssnYear2 value < 40) := by
    rcases hrange with ⟨a, b, c⟩ | ⟨a, b, c, d⟩ <;> omega
  have h4 : ¬ (900 ≤ ssnInum value ∧ ssnInum value < 1000 ∧ 39 < ssnYear2 value) := by
    rcases hrange with ⟨a, b, c⟩ | ⟨a, b, c, d⟩ <;> omega
  rw [ssnClean_main hne ⟨hlen, hdig⟩,
    ssnRules_none (ssnMonth value) (ssnDay value) _ h1 h2 h3 h4]
  simp [hc1, hc2]

/-- Witness for C9: `01014075069` (inum = 750, year2 = 40) passes both
checksums, matches no century rule, and is accepted with `birthday = none`. -/
theorem claim_ssn_no_rule_witness :
    (NOSocialSecurityNumber.clean ⟨none, none⟩ "01014075069").1 =
      .ok "01014075069" ∧
    (NOSocialSecurityNumber.clean ⟨none, none⟩ "01014075069").2.birthday = none :=
  claim_ssn_no_rule ⟨none, none⟩ "01014075069" (by decide) (by decide)
    (Or.inl ⟨by decide, by decide, by decide⟩) (by decide) (by decide)

/-- Claim C8 counterexample: validating a national identity number mutates the
field object's observable attribute state (here `birthday` and `gender` are
written), so a `clean` call does not leave the validator unchanged. -/
theorem claim_stateless_cex :
    (NOSocialSecurityNumber.clean ⟨none, none⟩ "01017012345").2 ≠
      (⟨none, none⟩ : SSNState) := by
  decide

/-- Claim C8 amended: the validation result never depends on state left by
earlier calls — for any two prior attribute states the returned
value/error of `clean` is identical (the other four validators are pure
functions of their input by construction) — but the national identity
number validator does write its `birthday`/`gender` attributes, so its
observable state is not left unchanged. -/
theorem claim_result_stateless (st st' : SSNState) (value : String) :
    (NOSocialSecurityNumber.clean st value).1 =
      (NOSocialSecurityNumber.clean st' value).1 :=
  ssnClean_fst_indep st st' value

/-! ## Helper lemmas: bank account number -/

lemma isDigitChar_not_sep {c : Char} (h : isDigitChar c = true) :
    ¬ (c = '.' ∨ c = ' ') := by
  rintro (rfl | rfl) <;> exact absurd h (by decide)

lemma dropDigits_all_digits (n : Nat) : ∀ (l : List Char),
    (∀ c ∈ l, isDigitChar c = true) → n ≤ l.length →
    dropDigits n l = some (l.drop n) := by
  induction n with
  | zero =>
    intro l _ _
    rfl
  | succ n ih =>
    intro l hall hlen
    cases l with
    | nil => simp at hlen
    | cons c r =>
      rw [dropDigits, if_pos (hall c (by simp))]
      rw [ih r (fun x hx => hall x (by simp [hx])) (by simpa using hlen)]
      rfl

lemma optSep_digits {l : List Char} (h : ∀ c ∈ l, isDigitChar c = true) :
    optSep l = l := by
  cases l with
  | nil => rfl
  | cons c r =>
    rw [optSep, if_neg (isDigitChar_not_sep (h c (by simp)))]

lemma bankMatch_of_digits {l : List Char} (hlen : l.length = 11)
    (hdig : ∀ c ∈ l, isDigitChar c = true) : bankMatch l = true := by
  have h4 : ∀ c ∈ l.drop 4, isDigitChar c = true :=
    fun c hc => hdig c (List.mem_of_mem_drop hc)
  have h6 : ∀ c ∈ (l.drop 4).drop 2, isDigitChar c = true :=
    fun c hc => h4 c (List.mem_of_mem_drop hc)
  have e1 : dropDigits 4 l = some (l.drop 4) :=
    dropDigits_all_digits 4 l hdig (by omega)
  have e2 : dropDigits 2 (l.drop 4) = some ((l.drop 4).drop 2) :=
    dropDigits_all_digits 2 (l.drop 4) h4 (by simp [hlen])
  have e3 : dropDigits 5 ((l.drop 4).drop 2) = some (((l.drop 4).drop 2).drop 5) :=
    dropDigits_all_digits 5 ((l.drop 4).drop 2) h6 (by simp [hlen])
  have e4 : ((l.drop 4).drop 2).drop 5 = [] := by
    apply List.eq_nil_of_length_eq_zero
    simp [hlen]
  simp only [bankMatch, e1, optSep_digits h4, e2, optSep_digits h6, e3, e4]

lemma dropDigits_sound {n : Nat} : ∀ {l r : List Char},
    dropDigits n l = some r → l.length = n + r.length ∧ ∀ c ∈ r, c ∈ l := by
  induction n with
  | zero =>
    intro l r h
    injection h with h
    subst h
    exact ⟨by omega, fun c hc => hc⟩
  | succ n ih =>
    intro l r h
    cases l with
    | nil => cases h
    | cons c t =>
      rw [dropDigits] at h
      split_ifs at h
      obtain ⟨hl, hm⟩ := ih h
      exact ⟨by simp [hl]; omega, fun x hx => by simp [hm x hx]⟩

lemma optSep_nosep {l : List Char} (h : ∀ c ∈ l, ¬ (c = '.' ∨ c = ' ')) :
    optSep l = l := by
  cases l with
  | nil => rfl
  | cons c r => rw [optSep, if_neg (h c (by simp))]

/-- A separator-free list accepted by the bank regex has exactly 11
characters. -/
lemma bankMatch_length {l : List Char} (hm : bankMatch l = true)
    (hsep : ∀ c ∈ l, ¬ (c = '.' ∨ c = ' ')) : l.length = 11 := by
  rw [bankMatch] at hm
  rcases e1 : dropDigits 4 l with _ | r1 <;> simp only [e1] at hm
  · cases hm
  obtain ⟨hl1, hm1⟩ := dropDigits_sound e1
  rw [optSep_nosep (fun c hc => hsep c (hm1 c hc))] at hm
  rcases e2 : dropDigits 2 r1 with _ | r2 <;> simp only [e2] at hm
  · cases hm
  obtain ⟨hl2, hm2⟩ := dropDigits_sound e2
  rw [optSep_nosep (fun c hc => hsep c (hm1 c (hm2 c hc)))] at hm
  rcases e3 : dropDigits 5 r2 with _ | r3 <;> simp only [e3] at hm
  · cases hm
  obtain ⟨hl3, _⟩ := dropDigits_sound e3
  cases r3 with
  | nil => simp at hl3; omega
  | cons c t => cases hm

/-- Characters surviving the separator strip are never separators. -/
lemma bankStrip_nosep (l : List Char) :
    ∀ c ∈ bankStrip l, ¬ (c = '.' ∨ c = ' ') := by
  intro c hc
  have := List.of_mem_filter hc
  intro hor
  rw [decide_eq_true_iff] at this
  exact this hor

/-- Claim C3: for a value whose separator-stripped form is exactly 11 digits, the
outcome is decided by the mod-11 checksum: the calculated digit
(first ten digits reversed, weighted by `weights_bank`, summed,
`11 - sum % 11` with 11 folded to 0) must equal the 11th digit, in which
case the canonical value is the stripped string; otherwise
`InvalidChecksum`. -/
theorem claim_bank_checksum (value : String)
    (hlen : (NOBankAccountField.to_python value).data.length = 11)
    (hdig : (NOBankAccountField.to_python value).data.all isDigitChar = true) :
    (bankCalculated (NOBankAccountField.to_python value).data =
        digitVal ((NOBankAccountField.to_python value).data.getLastD '0') →
      NOBankAccountField.clean value = .ok (NOBankAccountField.to_python value)) ∧
    (¬ (bankCalculated (NOBankAccountField.to_python value).data =
        digitVal ((NOBankAccountField.to_python value).data.getLastD '0')) →
      NOBankAccountField.clean value = .error Err.InvalidChecksum) := by
  have hd : ∀ c ∈ (NOBankAccountField.to_python value).data, isDigitChar c = true :=
    List.all_eq_true.mp hdig
  have hmatch : bankMatch (NOBankAccountField.to_python value).data = true :=
    bankMatch_of_digits hlen hd
  have hl13 : (NOBankAccountField.to_python value).length ≤ 13 := by
    have he : (NOBankAccountField.to_python value).length =
        (NOBankAccountField.to_python value).data.length := rfl
    omega
  constructor <;> intro hc <;>
    simp only [NOBankAccountField.clean] <;>
    rw [if_neg (not_not_intro hl13), if_neg (not_not_intro hmatch)]
  · rw [if_neg (not_not_intro hc)]
  · rw [if_pos hc]

/-- Witness for C3: the separator-stripped form of `8601.11.17947` is the
11-digit `86011117947`, whose calculated checksum 7 equals its last digit,
so it is accepted with the stripped canonical value. -/
theorem claim_bank_checksum_witness :
    NOBankAccountField.clean "8601.11.17947" = .ok "86011117947" :=
  (claim_bank_checksum "8601.11.17947" (by decide) (by decide)).1 (by decide)

/-- Claim C6 counterexample: the raw value `8601  11  17947` has 15 characters,
more than 13, yet it is accepted (its stripped form is the valid
`86011117947`), because the host framework's `MaxLengthValidator(13)` runs
on the output of `to_python`, i.e. after separator stripping. -/
theorem claim_bank_maxlen_cex :
    NOBankAccountField.clean "8601  11  17947" = .ok "86011117947" ∧
    13 < ("8601  11  17947" : String).length := by
  constructor
  · decide
  · decide

/-- Claim C6 amended: the 13-character bound applies to the separator-stripped
value, not the raw input: every accepted value strips to exactly 11
characters (within the bound), while raw strings longer than 13 characters
are still accepted whenever their stripped form is a valid account
number. -/
theorem claim_bank_strip_length (value c : String)
    (h : NOBankAccountField.clean value = .ok c) :
    c = NOBankAccountField.to_python value ∧
    (NOBankAccountField.to_python value).data.length = 11 ∧
    (NOBankAccountField.to_python value).length ≤ 13 := by
  simp only [NOBankAccountField.clean] at h
  split_ifs at h with h1 h2 h3
  injection h with h
  subst h
  refine ⟨rfl, ?_, by omega⟩
  have hsep : ∀ x ∈ (NOBankAccountField.to_python value).data, ¬ (x = '.' ∨ x = ' ') := by
    intro x hx
    exact bankStrip_nosep value.data x hx
  exact bankMatch_length (by simpa using h2) hsep

/-- Witness for C6's amended claim, at the over-long raw input. -/
theorem claim_bank_strip_length_witness :
    "86011117947" = NOBankAccountField.to_python "8601  11  17947" ∧
    (NOBankAccountField.to_python "8601  11  17947").data.length = 11 ∧
    (NOBankAccountField.to_python "8601  11  17947").length ≤ 13 :=
  claim_bank_strip_length "8601  11  17947" "86011117947" (by decide)

/-! ## Helper lemmas: organisation number -/

lemma data_mk (l : List Char) : (String.mk l).data = l := rfl

lemma length_mk (l : List Char) : (String.mk l).length = l.length := rfl

lemma isDigitChar_ne_space {c : Char} (h : isDigitChar c = true) : ¬ (c = ' ') :=
  fun hc => isDigitChar_not_sep h (Or.inr hc)

lemma parse3_sound {l g r : List Char} (h : parse3 l = some (g, r)) :
    ∃ a b c, l = a :: b :: c :: r ∧ g = [a, b, c] ∧
      isDigitChar a = true ∧ isDigitChar b = true ∧ isDigitChar c = true := by
  match l with
  | [] => cases h
  | [a] => cases h
  | [a, b] => cases h
  | a :: b :: c :: t =>
    rw [parse3] at h
    split_ifs at h with hd
    injection h with h
    rw [Prod.mk.injEq] at h
    refine ⟨a, b, c, ?_, h.1.symm, ?_, ?_, ?_⟩
    · rw [h.2]
    · simpa using hd.1
    · simpa using hd.2.1
    · simpa using hd.2.2

lemma parseMVA_sound {l suf : List Char} (h : parseMVA l = some suf) :
    (l = [] ∧ suf = []) ∨
    (∃ m v a, l = [' ', m, v, a] ∧ suf = l ∧
      charLower m = 'm' ∧ charLower v = 'v' ∧ charLower a = 'a') := by
  match l with
  | [] =>
    left
    injection h with h
    exact ⟨rfl, h.symm⟩
  | [s] => cases h
  | [s, m] => cases h
  | [s, m, v] => cases h
  | [s, m, v, a] =>
    rw [parseMVA] at h
    split_ifs at h with hd
    injection h with h
    right
    exact ⟨m, v, a, by rw [hd.1], by rw [← h, hd.1], hd.2.1, hd.2.2.1, hd.2.2.2⟩
  | s :: m :: v :: a :: x :: t => cases h

lemma orgPre_spec (l : List Char) :
    (orgPre l = ([], l)) ∨
    (∃ a b rest, l = a :: b :: ' ' :: rest ∧ charLower a = 'n' ∧
      charLower b = 'o' ∧ orgPre l = ([a, b, ' '], rest)) := by
  match l with
  | [] => left; rfl
  | [a] => left; rfl
  | [a, b] => left; rfl
  | a :: b :: c :: rest =>
    rw [orgPre]
    split_ifs with hd
    · right
      exact ⟨a, b, rest, by rw [hd.1], hd.2.1, hd.2.2, by rw [hd.1]⟩
    · left
      rfl

/-- Shapes of the five captured groups of a successful match. -/
lemma orgMatchL_sound {l pre g1 g2 g3 suf : List Char}
    (h : orgMatchL l = some (pre, g1, g2, g3, suf)) :
    (pre = [] ∨ ∃ a b, pre = [a, b, ' '] ∧ charLower a = 'n' ∧ charLower b = 'o') ∧
    (∃ x1 x2 x3, g1 = [x1, x2, x3] ∧ isDigitChar x1 = true ∧
      isDigitChar x2 = true ∧ isDigitChar x3 = true) ∧
    (∃ y1 y2 y3, g2 = [y1, y2, y3] ∧ isDigitChar y1 = true ∧
      isDigitChar y2 = true ∧ isDigitChar y3 = true) ∧
    (∃ z1 z2 z3, g3 = [z1, z2, z3] ∧ isDigitChar z1 = true ∧
      isDigitChar z2 = true ∧ isDigitChar z3 = true) ∧
    (suf = [] ∨ ∃ m v a, suf = [' ', m, v, a] ∧ charLower m = 'm' ∧
      charLower v = 'v' ∧ charLower a = 'a') := by
  rw [orgMatchL] at h
  rcases e1 : parse3 (orgPre l).2 with _ | ⟨a1, l2⟩ <;> simp only [e1] at h
  · cases h
  rcases e2 : parse3 (optSpace l2) with _ | ⟨a2, l3⟩ <;> simp only [e2] at h
  · cases h
  rcases e3 : parse3 (optSpace l3) with _ | ⟨a3, l4⟩ <;> simp only [e3] at h
  · cases h
  rcases e4 : parseMVA l4 with _ | s4 <;> simp only [e4] at h
  · cases h
  injection h with h
  rw [Prod.mk.injEq, Prod.mk.injEq, Prod.mk.injEq, Prod.mk.injEq] at h
  obtain ⟨hp, hg1, hg2, hg3, hsuf⟩ := h
  obtain ⟨x1, x2, x3, _, hge1, hx1, hx2, hx3⟩ := parse3_sound e1
  obtain ⟨y1, y2, y3, _, hge2, hy1, hy2, hy3⟩ := parse3_sound e2
  obtain ⟨z1, z2, z3, _, hge3, hz1, hz2, hz3⟩ := parse3_sound e3
  refine ⟨?_, ⟨x1, x2, x3, by rw [← hg1, hge1], hx1, hx2, hx3⟩,
    ⟨y1, y2, y3, by rw [← hg2, hge2], hy1, hy2, hy3⟩,
    ⟨z1, z2, z3, by rw [← hg3, hge3], hz1, hz2, hz3⟩, ?_⟩
  · rcases orgPre_spec l with hq | ⟨a, b, rest, _, han, hbo, hq⟩
    · left
      rw [← hp, hq]
    · right
      exact ⟨a, b, by rw [← hp, hq], han, hbo⟩
  · rcases parseMVA_sound e4 with ⟨_, hs⟩ | ⟨m, v, a, hlm, hs, hm, hv, ha⟩
    · left
      rw [← hsuf, ← hs]
    · right
      exact ⟨m, v, a, by rw [← hsuf, hs, hlm], hm, hv, ha⟩

/-- Re-matching the normalized value `prefix + digits + suffix` yields the
same five groups. -/
lemma orgMatchL_canonical {pre g1 g2 g3 suf : List Char}
    (hpre : pre = [] ∨ ∃ a b, pre = [a, b, ' '] ∧ charLower a = 'n' ∧ charLower b = 'o')
    (hg1 : ∃ x1 x2 x3, g1 = [x1, x2, x3] ∧ isDigitChar x1 = true ∧
      isDigitChar x2 = true ∧ isDigitChar x3 = true)
    (hg2 : ∃ y1 y2 y3, g2 = [y1, y2, y3] ∧ isDigitChar y1 = true ∧
      isDigitChar y2 = true ∧ isDigitChar y3 = true)
    (hg3 : ∃ z1 z2 z3, g3 = [z1, z2, z3] ∧ isDigitChar z1 = true ∧
      isDigitChar z2 = true ∧ isDigitChar z3 = true)
    (hsuf : suf = [] ∨ ∃ m v a, suf = [' ', m, v, a] ∧ charLower m = 'm' ∧
      charLower v = 'v' ∧ charLower a = 'a') :
    orgMatchL (pre ++ (g1 ++ g2 ++ g3) ++ suf) = some (pre, g1, g2, g3, suf) := by
  obtain ⟨x1, x2, x3, hG1, hx1, hx2, hx3⟩ := hg1
  obtain ⟨y1, y2, y3, hG2, hy1, hy2, hy3⟩ := hg2
  obtain ⟨z1, z2, z3, hG3, hz1, hz2, hz3⟩ := hg3
  subst hG1 hG2 hG3
  rcases hpre with hP | ⟨a, b, hP, han, hbo⟩ <;> subst hP
  · rcases hsuf with hS | ⟨m, v, w, hS, hm, hv, hw⟩ <;> subst hS
    · simp [orgMatchL, orgPre, parse3, optSpace, parseMVA,
        isDigitChar_ne_space hx3, isDigitChar_ne_space hy1, isDigitChar_ne_space hz1,
        hx1, hx2, hx3, hy1, hy2, hy3, hz1, hz2, hz3]
    · simp [orgMatchL, orgPre, parse3, optSpace, parseMVA,
        isDigitChar_ne_space hx3, isDigitChar_ne_space hy1, isDigitChar_ne_space hz1,
        hx1, hx2, hx3, hy1, hy2, hy3, hz1, hz2, hz3, hm, hv, hw]
  · rcases hsuf with hS | ⟨m, v, w, hS, hm, hv, hw⟩ <;> subst hS
    · simp [orgMatchL, orgPre, parse3, optSpace, parseMVA,
        isDigitChar_ne_space hx3, isDigitChar_ne_space hy1, isDigitChar_ne_space hz1,
        hx1, hx2, hx3, hy1, hy2, hy3, hz1, hz2, hz3, han, hbo]
    · simp [orgMatchL, orgPre, parse3, optSpace, parseMVA,
        isDigitChar_ne_space hx3, isDigitChar_ne_space hy1, isDigitChar_ne_space hz1,
        hx1, hx2, hx3, hy1, hy2, hy3, hz1, hz2, hz3, han, hbo, hm, hv, hw]

lemma digitVal_le_9 {c : Char} (h : isDigitChar c = true) : digitVal c ≤ 9 := by
  rw [isDigitChar, Bool.and_eq_true, decide_eq_true_eq, decide_eq_true_eq] at h
  have h9 : c.toNat ≤ 57 := h.2
  have h0 : ('0' : Char).toNat = 48 := rfl
  unfold digitVal
  omega

/-- Reduction of `clean` on a matched value reduces to the checksum test over the nine
matched digits, with the normalized value as canonical output. -/
lemma orgClean_eq {value : String} {pre g1 g2 g3 suf : List Char}
    (h : orgMatchL value.data = some (pre, g1, g2, g3, suf)) :
    NOOrganisationNumberField.clean value =
      if orgCalculated (g1 ++ g2 ++ g3) = 10 ∨
          ¬ (orgCalculated (g1 ++ g2 ++ g3) =
            digitVal ((g1 ++ g2 ++ g3).getLastD '0')) then
        .error Err.InvalidChecksum
      else .ok (String.mk (pre ++ (g1 ++ g2 ++ g3) ++ suf)) := by
  obtain ⟨hpre, hg1, hg2, hg3, hsuf⟩ := orgMatchL_sound h
  have hcan := orgMatchL_canonical hpre hg1 hg2 hg3 hsuf
  have hlen' : (pre ++ (g1 ++ g2 ++ g3) ++ suf).length ≤ 18 := by
    obtain ⟨x1, x2, x3, hG1, _⟩ := hg1
    obtain ⟨y1, y2, y3, hG2, _⟩ := hg2
    obtain ⟨z1, z2, z3, hG3, _⟩ := hg3
    rcases hpre with hP | ⟨a, b, hP, _, _⟩ <;>
      rcases hsuf with hS | ⟨m, v, w, hS, _, _, _⟩ <;>
      simp [hP, hS, hG1, hG2, hG3]
  simp only [NOOrganisationNumberField.clean, NOOrganisationNumberField.to_python,
    h, data_mk, length_mk, hcan]
  rw [if_neg (not_not_intro hlen')]

/-- Claim C4: for every structurally valid organisation number, the check value
`11 - (weighted sum of the first 8 digits) % 11` decides the outcome: if it
is 10 the result is always `InvalidChecksum`, whatever the 9th digit;
otherwise the result is `InvalidChecksum` exactly when it differs from the
9th digit. -/
theorem claim_org_checksum (value : String) (pre g1 g2 g3 suf : List Char)
    (h : orgMatchL value.data = some (pre, g1, g2, g3, suf)) :
    (orgCalculated (g1 ++ g2 ++ g3) = 10 →
      NOOrganisationNumberField.clean value = .error Err.InvalidChecksum) ∧
    (orgCalculated (g1 ++ g2 ++ g3) ≠ 10 →
      (NOOrganisationNumberField.clean value = .error Err.InvalidChecksum ↔
        orgCalculated (g1 ++ g2 ++ g3) ≠
          digitVal ((g1 ++ g2 ++ g3).getLastD '0'))) := by
  rw [orgClean_eq h]
  constructor
  · intro h10
    rw [if_pos (Or.inl h10)]
  · intro h10
    by_cases hc : orgCalculated (g1 ++ g2 ++ g3) =
        digitVal ((g1 ++ g2 ++ g3).getLastD '0')
    · rw [if_neg]
      · exact ⟨fun herr => Except.noConfusion herr, fun hne => absurd hc hne⟩
      · rintro (h1 | h2)
        · exact h10 h1
        · exact h2 hc
    · rw [if_pos (Or.inr hc)]
      exact ⟨fun _ => hc, fun _ => rfl⟩

/-- Witness for C4: `111 000 000` is structurally valid and its check value
is 10, so it is rejected whatever the trailing digit is. -/
theorem claim_org_checksum_witness :
    NOOrganisationNumberField.clean "111 000 000" = .error Err.InvalidChecksum :=
  (claim_org_checksum "111 000 000" [] ['1', '1', '1'] ['0', '0', '0']
    ['0', '0', '0'] [] (by decide)).1 (by decide)

/-- Claim C10: when the weighted sum of the first 8 digits is 0 mod 11, the check
value is 11, which no decimal digit can equal; such a number is always
rejected as `InvalidChecksum` — there is no 11-to-0 fold here, unlike the
bank account checksum. -/
theorem claim_org_mod11_zero (value : String) (pre g1 g2 g3 suf : List Char)
    (h : orgMatchL value.data = some (pre, g1, g2, g3, suf))
    (hsum : multiply_reduce (((g1 ++ g2 ++ g3).take 8).map digitVal)
      weights_org % 11 = 0) :
    orgCalculated (g1 ++ g2 ++ g3) = 11 ∧
    NOOrganisationNumberField.clean value = .error Err.InvalidChecksum := by
  have hcalc : orgCalculated (g1 ++ g2 ++ g3) = 11 := by
    rw [orgCalculated, hsum]
  have hlast : isDigitChar ((g1 ++ g2 ++ g3).getLastD '0') = true := by
    obtain ⟨_, ⟨x1, x2, x3, hG1, _⟩, ⟨y1, y2, y3, hG2, _⟩,
      ⟨z1, z2, z3, hG3, _, _, hz3⟩, _⟩ := orgMatchL_sound h
    rw [hG1, hG2, hG3]
    simpa [List.getLastD_cons] using hz3
  rw [orgClean_eq h]
  refine ⟨hcalc, ?_⟩
  rw [if_pos]
  right
  rw [hcalc]
  have := digitVal_le_9 hlast
  omega

/-- Witness for C10: `000000000` has weighted sum 0 and is rejected. -/
theorem claim_org_mod11_zero_witness :
    orgCalculated (['0', '0', '0'] ++ ['0', '0', '0'] ++ ['0', '0', '0']) = 11 ∧
    NOOrganisationNumberField.clean "000000000" = .error Err.InvalidChecksum :=
  claim_org_mod11_zero "000000000" [] ['0', '0', '0'] ['0', '0', '0']
    ['0', '0', '0'] [] (by decide) (by decide)

/-- Claim C5: idempotence.  Whenever a validator accepts `s` with canonical value
`c`, re-validating `c` succeeds and returns the identical canonical value
(for organisation numbers this preserves any matched prefix/suffix through
re-normalization; for the national identity number the outcome holds from
any attribute state). -/
theorem claim_idempotence (s c : String) :
    (NOZipCodeField.clean s = .ok c → NOZipCodeField.clean c = .ok c) ∧
    (NOPhoneNumberField.clean s = .ok c → NOPhoneNumberField.clean c = .ok c) ∧
    (NOBankAccountField.clean s = .ok c → NOBankAccountField.clean c = .ok c) ∧
    (NOOrganisationNumberField.clean s = .ok c →
      NOOrganisationNumberField.clean c = .ok c) ∧
    (∀ st st' : SSNState, (NOSocialSecurityNumber.clean st s).1 = .ok c →
      (NOSocialSecurityNumber.clean st' c).1 = .ok c) := by
  refine ⟨?_, ?_, ?_, ?_, ?_⟩
  · intro h
    rw [NOZipCodeField.clean] at h
    split_ifs at h with hz
    injection h with h
    subst h
    rw [NOZipCodeField.clean, if_pos hz]
  · intro h
    rw [NOPhoneNumberField.clean] at h
    split_ifs at h with hp
    injection h with h
    subst h
    rw [NOPhoneNumberField.clean, if_pos hp]
  · intro h
    simp only [NOBankAccountField.clean] at h
    split_ifs at h with h1 h2 h3
    injection h with h
    subst h
    have hstrip : NOBankAccountField.to_python (NOBankAccountField.to_python s) =
        NOBankAccountField.to_python s := by
      simp only [NOBankAccountField.to_python, data_mk]
      congr 1
      apply List.filter_eq_self.mpr
      intro a ha
      exact (List.mem_filter.mp ha).2
    simp only [NOBankAccountField.clean, hstrip]
    rw [if_neg (not_not_intro h1), if_neg (not_not_intro h2),
      if_neg (not_not_intro h3)]
  · intro h
    rcases hm : orgMatchL s.data with _ | ⟨pre, g1, g2, g3, suf⟩
    · simp only [NOOrganisationNumberField.clean,
        NOOrganisationNumberField.to_python, hm] at h
      split_ifs at h
    · rw [orgClean_eq hm] at h
      split_ifs at h with hbad
      injection h with h
      subst h
      obtain ⟨hpre, hg1, hg2, hg3, hsuf⟩ := orgMatchL_sound hm
      have hcan : orgMatchL (String.mk (pre ++ (g1 ++ g2 ++ g3) ++ suf)).data =
          some (pre, g1, g2, g3, suf) := by
        rw [data_mk]
        exact orgMatchL_canonical hpre hg1 hg2 hg3 hsuf
      rw [orgClean_eq hcan, if_neg hbad]
  · intro st st' h
    by_cases hne : s = ""
    · subst hne
      have h' : (Except.ok "" : Except Err String) = .ok c := h
      injection h' with h'
      subst h'
      rfl
    by_cases hs : s.data.length = 11 ∧ s.data.all isDigitChar
    · rw [ssnClean_main hne hs] at h
      have hind := ssnRules_ok_indep (ssnInum s) (ssnYear2 s) (ssnMonth s)
        (ssnDay s) ⟨none, st.gender⟩ ⟨none, st'.gender⟩
      rcases hr : ssnRules (ssnInum s) (ssnYear2 s) (ssnMonth s) (ssnDay s)
          ⟨none, st.gender⟩ with e | s2
      · simp only [hr] at h
        exact absurd h (by simp)
      · simp only [hr] at h
        split_ifs at h with hc1 hc2 <;>
        · have h' : (Except.ok s : Except Err String) = .ok c := h
          injection h' with h'
          subst h'
          rw [ssnClean_main hne hs]
          rcases hr' : ssnRules (ssnInum s) (ssnYear2 s) (ssnMonth s) (ssnDay s)
              ⟨none, st'.gender⟩ with e' | s2'
          · rw [hr, hr'] at hind
            exact absurd hind (by simp [exceptOk])
          · simp only [hr']
            rw [if_neg (not_not_intro hc1), if_neg (not_not_intro hc2)]
    · rw [NOSocialSecurityNumber.clean, if_neg hne, if_pos hs] at h
      exact absurd h (by simp)

/-- Witness for C5, at the bank account validator with a separator-bearing
input: the canonical value re-validates to itself. -/
theorem claim_idempotence_witness :
    NOBankAccountField.clean "86011117947" = .ok "86011117947" :=
  (claim_idempotence "8601 11 17947" "86011117947").2.2.1 (by decide)
